import Mathlib

/-!
Formal model of the risk-management and trading-decision engine of the
RLE asset-management repository (TypeScript sources
services/risk-management.ts, the AI trading engine and the broker API
type declarations).

Numeric values of the source (IEEE doubles) are modelled as exact
rationals.  The corner results of JavaScript division and of Math.max
applied to an empty array are modelled by the JSNum type.  External
collaborators enter as explicit parameters: the broker balance and
real-time prices, the order-submission outcome, the clock, and the
standard-normal draws produced by the Box-Muller transform inside the
Monte-Carlo loop.
-/

namespace RLE

/-- Result of a JavaScript numeric operation: an ordinary finite value
(modelled exactly as a rational) or one of NaN, Infinity, -Infinity. -/
inductive JSNum where
  | finite (q : ℚ)
  | nan
  | posInf
  | negInf
deriving DecidableEq, Repr

/-- JavaScript division: for a nonzero divisor the exact quotient; a / 0 is
NaN when a = 0 and a signed infinity otherwise. -/
def jsDiv (a b : ℚ) : JSNum :=
  if b ≠ 0 then JSNum.finite (a / b)
  else if 0 < a then JSNum.posInf
  else if a < 0 then JSNum.negInf
  else JSNum.nan

/-- JavaScript Math.max over a spread array: -Infinity on an empty array,
otherwise the greatest element. -/
def jsMaxList : List ℚ → JSNum
  | [] => JSNum.negInf
  | x :: xs => JSNum.finite (xs.foldl max x)

/-- Decision of whether a JSNum is a finite value inside [0, 1]. -/
def JSNum.inUnitRange : JSNum → Bool
  | JSNum.finite q => decide (0 ≤ q ∧ q ≤ 1)
  | _ => false

/-- Position interface of the broker API (real-trading-api). -/
structure Position where
  symbol : String
  symbolName : String
  quantity : ℚ
  avgPrice : ℚ
  currentPrice : ℚ
  evaluationAmount : ℚ
  profitLoss : ℚ
  profitLossRate : ℚ
deriving DecidableEq, Repr, Inhabited

/-- AccountBalance interface of the broker API. -/
structure AccountBalance where
  totalAssets : ℚ
  cashBalance : ℚ
  stockValue : ℚ
  purchaseAmount : ℚ
  evaluationPL : ℚ
  positions : List Position
deriving DecidableEq, Repr

/-- Order side; the trading decisions additionally use hold. -/
inductive TradeAction where
  | buy
  | sell
  | hold
deriving DecidableEq, Repr

/-- Order method of the broker API. -/
inductive OrderMethod where
  | market
  | limit
deriving DecidableEq, Repr

/-- Order status values of the broker API. -/
inductive OrderStatus where
  | pending
  | filled
  | cancelled
  | rejected
deriving DecidableEq, Repr

/-- StockOrder interface of the broker API. -/
structure StockOrder where
  symbol : String
  orderType : TradeAction
  orderMethod : OrderMethod
  quantity : ℚ
  price : Option ℚ
  accountNo : String
deriving DecidableEq, Repr

/-- OrderResult interface of the broker API. -/
structure OrderResult where
  orderId : String
  status : OrderStatus
  executedQty : ℚ
  executedPrice : ℚ
  timestamp : String
  fee : ℚ
deriving DecidableEq, Repr

/-- TradingDecision produced by the AI trading engine. -/
structure TradingDecision where
  symbol : String
  action : TradeAction
  confidence : ℚ
  targetSize : ℚ
  reasoning : List String
  riskScore : ℚ
  expectedReturn : ℚ
deriving DecidableEq, Repr

/-- TradingResult audit record of the AI trading engine. -/
structure TradingResult where
  decision : TradingDecision
  order : Option OrderResult
  executed : Bool
  errorMessage : Option String
  timestamp : String
deriving DecidableEq, Repr

/-- RiskLimits block of the trading configuration. -/
structure RiskLimits where
  maxPositionSize : ℚ
  maxDailyLoss : ℚ
  maxDrawdown : ℚ
  minCashRatio : ℚ
  maxLeverage : ℚ
deriving DecidableEq, Repr

/-- TradingConfiguration of the AI trading engine. -/
structure TradingConfiguration where
  enableAutoTrading : Bool
  riskLimits : RiskLimits
  confidenceThreshold : ℚ
  maxTradesPerDay : ℕ
  targetSymbols : List String
  rebalanceFrequency : String
deriving DecidableEq, Repr

/-- Partial TradingConfiguration, the argument type of updateConfiguration:
each top-level key may be present or absent.  TypeScript Partial is shallow,
so riskLimits, when present, is a whole RiskLimits object. -/
structure PartialTradingConfiguration where
  enableAutoTrading : Option Bool
  riskLimits : Option RiskLimits
  confidenceThreshold : Option ℚ
  maxTradesPerDay : Option ℕ
  targetSymbols : Option (List String)
  rebalanceFrequency : Option String
deriving DecidableEq, Repr

/-- Cumulative performance counters owned by the AI trading engine. -/
structure PerformanceMetrics where
  totalTrades : ℕ
  winTrades : ℕ
  totalPnL : ℚ
  maxDrawdown : ℚ
deriving DecidableEq, Repr

/-- Mutable running state of the AI trading engine. -/
structure EngineState where
  isRunning : Bool
  dailyTrades : ℕ
  lastTradeDate : String
  performanceMetrics : PerformanceMetrics
deriving DecidableEq, Repr

/-- Spread-merge body of AITradingEngine.updateConfiguration: every key
present in the partial overrides the whole previous value of that key;
every absent key keeps its previous value. -/
def updateConfiguration (cfg : TradingConfiguration)
    (newConfig : PartialTradingConfiguration) : TradingConfiguration :=
  { enableAutoTrading := newConfig.enableAutoTrading.getD cfg.enableAutoTrading
    riskLimits := newConfig.riskLimits.getD cfg.riskLimits
    confidenceThreshold := newConfig.confidenceThreshold.getD cfg.confidenceThreshold
    maxTradesPerDay := newConfig.maxTradesPerDay.getD cfg.maxTradesPerDay
    targetSymbols := newConfig.targetSymbols.getD cfg.targetSymbols
    rebalanceFrequency := newConfig.rebalanceFrequency.getD cfg.rebalanceFrequency }

/-- VaR block of the risk metrics. -/
structure PortfolioVaR where
  var95 : ℚ
  var99 : ℚ
  expectedShortfall : ℚ
deriving DecidableEq, Repr

/-- Concentration block of the risk metrics; maxSinglePosition is the value
of Math.max over the position weights, hence a JSNum. -/
structure ConcentrationMetrics where
  maxSinglePosition : JSNum
  sectorConcentration : List (String × ℚ)
  topPositions : List Position
deriving DecidableEq, Repr

/-- Drawdown block of the risk metrics. -/
structure DrawdownMetrics where
  currentDrawdown : ℚ
  maxDrawdown : ℚ
  drawdownDuration : ℕ
deriving DecidableEq, Repr

/-- Risk metrics consumed by the alert generator and the circuit-breaker
evaluator.  The liquidity and correlation blocks of the source are not read
by any verified operation and are omitted from the model. -/
structure RiskMetrics where
  portfolioVar : PortfolioVaR
  leverage : ℚ
  concentration : ConcentrationMetrics
  drawdown : DrawdownMetrics
deriving DecidableEq, Repr

/-- Action category of a circuit breaker. -/
inductive BreakerAction where
  | halt_trading
  | reduce_position
  | emergency_exit
deriving DecidableEq, Repr

/-- CircuitBreaker record. -/
structure CircuitBreaker where
  name : String
  threshold : ℚ
  currentValue : ℚ
  triggered : Bool
  action : BreakerAction
  description : String
deriving DecidableEq, Repr

/-- Body of RiskManagementSystem.calculateLeverage: a plain JavaScript
division of stockValue by totalAssets, with no guard for a zero divisor. -/
def calculateLeverage (balance : AccountBalance) : JSNum :=
  jsDiv balance.stockValue balance.totalAssets

/-- Body of RiskManagementSystem.checkCircuitBreakers: three fixed breaker
records built from the current metrics and the configured risk limits. -/
def checkCircuitBreakers (cfg : TradingConfiguration)
    (metrics : RiskMetrics) : List CircuitBreaker :=
  [ { name := "Emergency VaR Breaker"
      threshold := cfg.riskLimits.maxDailyLoss * 20000
      currentValue := metrics.portfolioVar.var99
      triggered := decide (cfg.riskLimits.maxDailyLoss * 20000 < metrics.portfolioVar.var99)
      action := BreakerAction.emergency_exit
      description := "99% VaR 긴급 차단기" },
    { name := "Drawdown Breaker"
      threshold := cfg.riskLimits.maxDrawdown * 2
      currentValue := metrics.drawdown.currentDrawdown
      triggered := decide (cfg.riskLimits.maxDrawdown * 2 < metrics.drawdown.currentDrawdown)
      action := BreakerAction.halt_trading
      description := "최대 낙폭 2배 도달시 매매 중단" },
    { name := "Leverage Breaker"
      threshold := cfg.riskLimits.maxLeverage * (3 / 2)
      currentValue := metrics.leverage
      triggered := decide (cfg.riskLimits.maxLeverage * (3 / 2) < metrics.leverage)
      action := BreakerAction.reduce_position
      description := "레버리지 1.5배 초과시 포지션 축소" } ]

/-- Body of EmergencyResponseSystem.emergencyExit: one full-quantity market
sell per held position; a failed submission is only logged and the loop
continues, so the emitted order list does not depend on outcomes. -/
def emergencyExit (balance : AccountBalance) : List StockOrder :=
  balance.positions.map fun position =>
    { symbol := position.symbol
      orderType := TradeAction.sell
      orderMethod := OrderMethod.market
      quantity := position.quantity
      price := none
      accountNo := "emergency" }

/-- Body of EmergencyResponseSystem.haltTrading: the source prints a log
line and contains no further statement, so the engine state is unchanged
and no broker call is made. -/
def haltTrading (engine : EngineState) : EngineState :=
  engine

/-- Body of EmergencyResponseSystem.reducePositions: market sell of
floor(quantity times the reduction factor) per position, skipping zero
quantities; failures are only logged. -/
def reducePositions (balance : AccountBalance) (reductionFactor : ℚ) : List StockOrder :=
  balance.positions.filterMap fun position =>
    let sellQuantity : ℚ := ((⌊position.quantity * reductionFactor⌋ : ℤ) : ℚ)
    if 0 < sellQuantity then
      some { symbol := position.symbol
             orderType := TradeAction.sell
             orderMethod := OrderMethod.market
             quantity := sellQuantity
             price := none
             accountNo := "risk_management" }
    else
      none

/-- Dispatch of one triggered breaker inside handleEmergency, returning the
updated engine state and the broker orders submitted for it. -/
def handleEmergencyStep (balance : AccountBalance) (engine : EngineState)
    (breaker : CircuitBreaker) : EngineState × List StockOrder :=
  match breaker.action with
  | BreakerAction.emergency_exit => (engine, emergencyExit balance)
  | BreakerAction.halt_trading => (haltTrading engine, [])
  | BreakerAction.reduce_position => (engine, reducePositions balance (1 / 2))

/-- Sequential loop of handleEmergency over the triggered breakers,
threading the engine state and collecting the submitted orders. -/
def handleEmergencyLoop (balance : AccountBalance) :
    EngineState → List CircuitBreaker → EngineState × List StockOrder
  | engine, [] => (engine, [])
  | engine, b :: rest =>
    let step := handleEmergencyStep balance engine b
    let tail := handleEmergencyLoop balance step.1 rest
    (tail.1, step.2 ++ tail.2)

/-- Body of EmergencyResponseSystem.handleEmergency: keep the triggered
breakers and dispatch each in order on its action category. -/
def handleEmergency (breakers : List CircuitBreaker) (balance : AccountBalance)
    (engine : EngineState) : EngineState × List StockOrder :=
  handleEmergencyLoop balance engine (breakers.filter fun b => b.triggered)

/-- Environment of one engine invocation: the broker account snapshot, the
real-time price feed, the order-submission outcome (an error models a
thrown rejection), the clock value and the current calendar date. -/
structure TradeEnv where
  balance : AccountBalance
  price : String → ℚ
  placeOrder : StockOrder → Except String OrderResult
  now : String
  today : String

/-- Outcome of AITradingEngine.executeSingleTrade: the returned trading
result or the propagated submission error, together with the placeOrder
calls that were made before returning. -/
structure SingleTradeOutcome where
  result : Except String TradingResult
  submitted : List StockOrder
deriving Repr

/-- JavaScript expression balance.positions[0]?.symbol || "default" used
for the account number: the first position symbol unless it is absent or
the empty string (falsy). -/
def firstPositionAccountNo (balance : AccountBalance) : String :=
  match balance.positions.head? with
  | some p => if p.symbol = "" then "default" else p.symbol
  | none => "default"

/-- Body of AITradingEngine.executeSingleTrade: target amount from the
decision weight, traded quantity as the floor of the absolute amount
difference over the fetched price, an early not-executed return when the
quantity is zero, otherwise a market-order submission whose thrown
rejection is re-raised to the caller. -/
def executeSingleTrade (env : TradeEnv) (decision : TradingDecision) : SingleTradeOutcome :=
  let balance := env.balance
  let targetAmount := balance.totalAssets * decision.targetSize
  let currentPosition := balance.positions.find? fun p => p.symbol == decision.symbol
  let currentAmount := (currentPosition.map Position.evaluationAmount).getD 0
  let tradeAmount := |targetAmount - currentAmount|
  let quantity : ℚ := ((⌊tradeAmount / env.price decision.symbol⌋ : ℤ) : ℚ)
  if quantity = 0 then
    { result := Except.ok
        { decision := decision
          order := none
          executed := false
          errorMessage := some "No quantity to trade"
          timestamp := env.now }
      submitted := [] }
  else
    let order : StockOrder :=
      { symbol := decision.symbol
        orderType := decision.action
        orderMethod := OrderMethod.market
        quantity := quantity
        price := none
        accountNo := firstPositionAccountNo balance }
    match env.placeOrder order with
    | Except.ok orderResult =>
      { result := Except.ok
          { decision := decision
            order := some orderResult
            executed := true
            errorMessage := none
            timestamp := env.now }
        submitted := [order] }
    | Except.error e =>
      { result := Except.error e, submitted := [order] }

/-- Result of a batch execution: the audit records in input order, the
orders submitted to the broker, and the updated engine state. -/
structure BatchOutcome where
  results : List TradingResult
  submitted : List StockOrder
  state : EngineState
deriving Repr

/-- Loop of AITradingEngine.executeTradingDecisions: strictly sequential
execution, a per-decision catch that records a failed submission with its
error message and continues with the next decision, and the daily and
cumulative counters incremented only for executed trades. -/
def executeTradingDecisions (env : TradeEnv) (st : EngineState) :
    List TradingDecision → BatchOutcome
  | [] => { results := [], submitted := [], state := st }
  | decision :: rest =>
    let single := executeSingleTrade env decision
    match single.result with
    | Except.ok r =>
      let st2 :=
        if r.executed then
          { st with
            dailyTrades := st.dailyTrades + 1
            performanceMetrics :=
              { st.performanceMetrics with
                totalTrades := st.performanceMetrics.totalTrades + 1 } }
        else st
      let tail := executeTradingDecisions env st2 rest
      { results := r :: tail.results
        submitted := single.submitted ++ tail.submitted
        state := tail.state }
    | Except.error e =>
      let r : TradingResult :=
        { decision := decision
          order := none
          executed := false
          errorMessage := some e
          timestamp := env.now }
      let tail := executeTradingDecisions env st rest
      { results := r :: tail.results
        submitted := single.submitted ++ tail.submitted
        state := tail.state }

/-- Loop of AITradingEngine.filterDecisionsByRisk: break out of the whole
loop once the daily trade count has reached the daily maximum (the count is
a field that does not change during the loop), drop decisions with risk
score above 0.7, drop decisions with confidence below the threshold. -/
def filterLoop (cfg : TradingConfiguration) (dailyTrades : ℕ) :
    List TradingDecision → List TradingDecision
  | [] => []
  | decision :: rest =>
    if cfg.maxTradesPerDay ≤ dailyTrades then []
    else if (7 : ℚ) / 10 < decision.riskScore then filterLoop cfg dailyTrades rest
    else if decision.confidence < cfg.confidenceThreshold then filterLoop cfg dailyTrades rest
    else decision :: filterLoop cfg dailyTrades rest

/-- Body of AITradingEngine.filterDecisionsByRisk: reset the daily counter
and stamp the new date on a calendar-date change, then run the filter
loop. -/
def filterDecisionsByRisk (cfg : TradingConfiguration) (st : EngineState)
    (today : String) (decisions : List TradingDecision) :
    List TradingDecision × EngineState :=
  let st2 :=
    if st.lastTradeDate ≠ today then
      { st with dailyTrades := 0, lastTradeDate := today }
    else st
  (filterLoop cfg st2.dailyTrades decisions, st2)

/-- Decision-consuming tail of AITradingEngine.executeRebalancing: the
engine must be running; the decisions produced by the opaque AI stage are
risk-filtered and then executed sequentially. -/
def executeRebalancing (env : TradeEnv) (cfg : TradingConfiguration)
    (st : EngineState) (decisions : List TradingDecision) :
    Except String BatchOutcome :=
  if st.isRunning = false then Except.error "Trading engine is not running"
  else
    let filtered := filterDecisionsByRisk cfg st env.today decisions
    Except.ok (executeTradingDecisions env filtered.2 filtered.1)

/-- Stop-loss decision built by checkStopLossAndTakeProfit for a position
at or below minus five percent: confidence one and target weight zero. -/
def stopLossDecision (position : Position) : TradingDecision :=
  { symbol := position.symbol
    action := TradeAction.sell
    confidence := 1
    targetSize := 0
    reasoning := ["손절 조건 도달"]
    riskScore := 1
    expectedReturn := position.profitLossRate }

/-- Take-profit decision built by checkStopLossAndTakeProfit for a position
at or above plus twenty percent: confidence one and target weight one
half. -/
def takeProfitDecision (position : Position) : TradingDecision :=
  { symbol := position.symbol
    action := TradeAction.sell
    confidence := 1
    targetSize := 1 / 2
    reasoning := ["익절 조건 도달"]
    riskScore := 1 / 10
    expectedReturn := position.profitLossRate }

/-- One position of the checkStopLossAndTakeProfit sweep: the stop-loss
trade when the loss rate is at most minus five percent, then the
take-profit trade when the gain rate is at least twenty percent.
executeSingleTrade is called directly, bypassing filterDecisionsByRisk, and
an uncaught submission error aborts the rest. -/
def checkPositionSLTP (env : TradeEnv) (position : Position) :
    Except String Unit × List StockOrder :=
  let step1 : Except String Unit × List StockOrder :=
    if position.profitLossRate ≤ -(5 : ℚ) / 100 then
      let s := executeSingleTrade env (stopLossDecision position)
      (s.result.map fun _ => (), s.submitted)
    else (Except.ok (), [])
  match step1.1 with
  | Except.error e => (Except.error e, step1.2)
  | Except.ok _ =>
    let step2 : Except String Unit × List StockOrder :=
      if (20 : ℚ) / 100 ≤ position.profitLossRate then
        let s := executeSingleTrade env (takeProfitDecision position)
        (s.result.map fun _ => (), s.submitted)
      else (Except.ok (), [])
    (step2.1, step1.2 ++ step2.2)

/-- Sequential sweep over the held positions used by
checkStopLossAndTakeProfit. -/
def sweepSLTP (env : TradeEnv) : List Position → Except String Unit × List StockOrder
  | [] => (Except.ok (), [])
  | p :: rest =>
    let head := checkPositionSLTP env p
    match head.1 with
    | Except.error e => (Except.error e, head.2)
    | Except.ok _ =>
      let tail := sweepSLTP env rest
      (tail.1, head.2 ++ tail.2)

/-- Body of AITradingEngine.checkStopLossAndTakeProfit: sweep every held
position of the fetched balance in order. -/
def checkStopLossAndTakeProfit (env : TradeEnv) :
    Except String Unit × List StockOrder :=
  sweepSLTP env env.balance.positions

/-- Mean and standard deviation of the estimated return distribution of one
asset. -/
structure ReturnStats where
  mean : ℚ
  std : ℚ
deriving DecidableEq, Repr, Inhabited

/-- Body of RiskManagementSystem.getAssetReturns: the default statistics
(mean 0.001, std 0.02) for a symbol with fewer than twenty recorded
returns, otherwise the sample mean and the square root of the sample
variance; the irrational square root of Math enters as the sqrtFn
parameter. -/
def getAssetReturns (sqrtFn : ℚ → ℚ) (historicalReturns : String → List ℚ)
    (positions : List Position) : List ReturnStats :=
  positions.map fun position =>
    let returns := historicalReturns position.symbol
    if returns.length < 20 then { mean := 1 / 1000, std := 2 / 100 }
    else
      let mean := returns.sum / (returns.length : ℚ)
      let variance := (returns.map fun r => (r - mean) ^ 2).sum / (returns.length : ℚ)
      { mean := mean, std := sqrtFn variance }

/-- Number of Monte-Carlo trials of calculatePortfolioVaR. -/
def numSimulations : ℕ := 10000

/-- One Monte-Carlo trial of calculatePortfolioVaR: each asset moves by
mean + std times its standard-normal draw (generateCorrelatedReturn, which
ignores the correlation matrix) and the resulting position values are
summed; draws i j is the Box-Muller output of trial i for asset j, an
external random source. -/
def simulatedPortfolioValue (draws : ℕ → ℕ → ℚ) (stats : List ReturnStats)
    (positions : List Position) (i : ℕ) : ℚ :=
  (List.range positions.length).foldl
    (fun acc j =>
      let position := positions.getD j default
      let s := stats.getD j default
      let randomReturn := s.mean + s.std * draws i j
      let newPrice := position.currentPrice * (1 + randomReturn)
      acc + position.quantity * newPrice)
    0

/-- Body of RiskManagementSystem.calculatePortfolioVaR: ten thousand
simulated portfolio totals, sorted ascending; var95 and var99 subtract the
values at the floor five percent and floor one percent indices from the
current total assets, and the expected shortfall subtracts the mean of the
values below the five percent cutoff. -/
def calculatePortfolioVaR (draws : ℕ → ℕ → ℚ) (stats : List ReturnStats)
    (balance : AccountBalance) : PortfolioVaR :=
  let portfolioValues :=
    (List.range numSimulations).map
      (simulatedPortfolioValue draws stats balance.positions)
  let sortedValues := List.insertionSort (· ≤ ·) portfolioValues
  let currentValue := balance.totalAssets
  let var95Index := numSimulations * 5 / 100
  let var99Index := numSimulations * 1 / 100
  let var95 := currentValue - sortedValues.getD var95Index 0
  let var99 := currentValue - sortedValues.getD var99Index 0
  let tailLosses := sortedValues.take var95Index
  let avgTailLoss := tailLosses.sum / (tailLosses.length : ℚ)
  { var95 := var95
    var99 := var99
    expectedShortfall := currentValue - avgTailLoss }

/-- Sector lookup of RiskManagementSystem.getSector with the default sector
Others for unknown symbols. -/
def getSector (symbol : String) : String :=
  if symbol = "005930" then "Technology"
  else if symbol = "000660" then "Technology"
  else if symbol = "035420" then "Technology"
  else if symbol = "051910" then "Chemical"
  else if symbol = "068270" then "Healthcare"
  else if symbol = "035720" then "Healthcare"
  else if symbol = "207940" then "Technology"
  else if symbol = "006400" then "Steel"
  else if symbol = "028260" then "Consumer"
  else if symbol = "012330" then "Mobile"
  else "Others"

/-- Read of a JavaScript Map entry with default zero. -/
def mapGetD (m : List (String × ℚ)) (key : String) : ℚ :=
  ((m.find? fun e => e.1 == key).map Prod.snd).getD 0

/-- Write of a JavaScript Map entry: update the existing entry or append a
new one. -/
def mapSet (m : List (String × ℚ)) (key : String) (value : ℚ) : List (String × ℚ) :=
  if (m.find? fun e => e.1 == key).isSome then
    m.map fun e => if e.1 == key then (e.1, value) else e
  else m ++ [(key, value)]

/-- Per-position weights of calculateConcentrationRisk: evaluation amount
over total assets.  The rational division is exact only for nonzero total
assets; at zero total assets the program produces non-finite values
(NaN or a signed infinity), so every theorem over this definition carries a
nonzero-total hypothesis. -/
def positionWeights (balance : AccountBalance) : List ℚ :=
  balance.positions.map fun position => position.evaluationAmount / balance.totalAssets

/-- Sector fold of calculateConcentrationRisk: every position weight is
added to the entry of exactly its own sector.  The entry read in the source
coalesces falsy stored values to zero (get or-else 0); over the finite
rational weights of a nonzero-total account only a stored zero is falsy, on
which the coalescing is the identity, so mapGetD models it there; the
zero-total account, whose weights are non-finite, is excluded by the same
nonzero-total hypothesis as in positionWeights. -/
def sectorFold (balance : AccountBalance) : List (String × ℚ) :=
  balance.positions.foldl
    (fun m position =>
      let sector := getSector position.symbol
      let w := position.evaluationAmount / balance.totalAssets
      mapSet m sector (mapGetD m sector + w))
    []

/-- Top five positions by evaluation amount, via the descending comparison
sort of the source. -/
def topPositions (balance : AccountBalance) : List Position :=
  (List.insertionSort (fun a b => b.evaluationAmount ≤ a.evaluationAmount)
    balance.positions).take 5

/-- Body of RiskManagementSystem.calculateConcentrationRisk. -/
def calculateConcentrationRisk (balance : AccountBalance) : ConcentrationMetrics :=
  { maxSinglePosition := jsMaxList (positionWeights balance)
    sectorConcentration := sectorFold balance
    topPositions := topPositions balance }

/-- Running state of RiskManagementSystem owned by the engine: the appended
performance history and the running peak. -/
structure RiskSystemState where
  performanceHistory : List ℚ
  maxHistoricalValue : ℚ
deriving DecidableEq, Repr

/-- Initial risk-system state at construction: empty history, zero peak. -/
def initialRiskSystemState : RiskSystemState :=
  { performanceHistory := [], maxHistoricalValue := 0 }

/-- Peak-tracking scan of calculateDrawdownMetrics over the stored history:
the running peak absorbs each value in order and the largest
(peak - value) / peak is kept. -/
def ddScan : List ℚ → ℚ → ℚ → ℚ
  | [], _, m => m
  | v :: rest, peak, m =>
    let peak2 := max peak v
    let drawdown := (peak2 - v) / peak2
    ddScan rest peak2 (max m drawdown)

/-- Drawdown duration of calculateDrawdownMetrics: the number of most
recent history entries strictly below the running peak. -/
def ddDuration (history : List ℚ) (peak : ℚ) : ℕ :=
  (history.reverse.takeWhile fun v => decide (v < peak)).length

/-- Body of RiskManagementSystem.calculateDrawdownMetrics: push the current
total onto the history, fold it into the running peak, then compute the
current drawdown, the maximum drawdown over the stored history, and the
drawdown duration. -/
def calculateDrawdownMetrics (s : RiskSystemState) (totalAssets : ℚ) :
    DrawdownMetrics × RiskSystemState :=
  let history := s.performanceHistory ++ [totalAssets]
  let maxHist := max s.maxHistoricalValue totalAssets
  let currentDrawdown := (maxHist - totalAssets) / maxHist
  let maxDrawdown := ddScan history 0 0
  let duration := ddDuration history maxHist
  ({ currentDrawdown := currentDrawdown
     maxDrawdown := maxDrawdown
     drawdownDuration := duration },
   { performanceHistory := history, maxHistoricalValue := maxHist })

/-- Engine lifetime: fold of calculateDrawdownMetrics over all totals
observed since construction. -/
def runDrawdown (totals : List ℚ) : RiskSystemState :=
  totals.foldl (fun s t => (calculateDrawdownMetrics s t).2) initialRiskSystemState

/-- Body of createDefaultTradingConfig. -/
def createDefaultTradingConfig : TradingConfiguration :=
  { enableAutoTrading := false
    riskLimits :=
      { maxPositionSize := 1 / 10
        maxDailyLoss := 2 / 100
        maxDrawdown := 5 / 100
        minCashRatio := 1 / 10
        maxLeverage := 1 }
    confidenceThreshold := 3 / 4
    maxTradesPerDay := 10
    targetSymbols := ["005930", "000660", "035420", "051910", "068270"]
    rebalanceFrequency := "daily" }

/-- Successful broker order result used by the concrete scenarios. -/
def okOrderResult : OrderResult :=
  { orderId := "1"
    status := OrderStatus.filled
    executedQty := 0
    executedPrice := 0
    timestamp := "t"
    fee := 0 }

/-- Account of the leverage example: 1000000 total, 200000 cash, 800000
stock. -/
def c6account : AccountBalance :=
  { totalAssets := 1000000
    cashBalance := 200000
    stockValue := 800000
    purchaseAmount := 800000
    evaluationPL := 0
    positions := [] }

/-- Default configuration with one chosen maxLeverage limit. -/
def c6cfg (maxLeverage : ℚ) : TradingConfiguration :=
  { createDefaultTradingConfig with
    riskLimits := { createDefaultTradingConfig.riskLimits with maxLeverage := maxLeverage } }

/-- Risk metrics of the leverage scenario: leverage 0.8, all other current
values zero. -/
def c6metrics : RiskMetrics :=
  { portfolioVar := { var95 := 0, var99 := 0, expectedShortfall := 0 }
    leverage := 4 / 5
    concentration :=
      { maxSinglePosition := JSNum.finite (4 / 5)
        sectorConcentration := []
        topPositions := [] }
    drawdown := { currentDrawdown := 0, maxDrawdown := 0, drawdownDuration := 0 } }

/-- Claim C6: checkCircuitBreakers always returns exactly three breakers,
evaluated independently every cycle — the Emergency VaR breaker (threshold
maxDailyLoss times 20000 compared against var99, action emergency_exit),
the Drawdown breaker (threshold maxDrawdown times 2 compared against
currentDrawdown, action halt_trading) and the Leverage breaker (threshold
maxLeverage times 1.5 compared against leverage, action reduce_position) —
each triggered exactly when its current value exceeds its threshold; the
example account gives leverage 0.8, and with that leverage the leverage
breaker stays untriggered for maxLeverage 1 and triggers for maxLeverage
0.5 (0.8 over 0.75). -/
theorem C6_checkCircuitBreakers_spec :
    (∀ (cfg : TradingConfiguration) (m : RiskMetrics),
      (checkCircuitBreakers cfg m).length = 3 ∧
      (∀ b ∈ checkCircuitBreakers cfg m, b.triggered = true ↔ b.threshold < b.currentValue) ∧
      (checkCircuitBreakers cfg m).map
          (fun b => (b.threshold, b.currentValue, b.action)) =
        [(cfg.riskLimits.maxDailyLoss * 20000, m.portfolioVar.var99,
            BreakerAction.emergency_exit),
         (cfg.riskLimits.maxDrawdown * 2, m.drawdown.currentDrawdown,
            BreakerAction.halt_trading),
         (cfg.riskLimits.maxLeverage * (3 / 2), m.leverage,
            BreakerAction.reduce_position)]) ∧
    calculateLeverage c6account = JSNum.finite (4 / 5) ∧
    (checkCircuitBreakers (c6cfg 1) c6metrics).map CircuitBreaker.triggered =
      [false, false, false] ∧
    (checkCircuitBreakers (c6cfg (1 / 2)) c6metrics).map CircuitBreaker.triggered =
      [false, false, true] := by
  refine ⟨?_, by norm_num [calculateLeverage, c6account, jsDiv], ?_, ?_⟩
  case refine_2 =>
    norm_num [checkCircuitBreakers, c6cfg, c6metrics, createDefaultTradingConfig]
  case refine_3 =>
    norm_num [checkCircuitBreakers, c6cfg, c6metrics, createDefaultTradingConfig]
  intro cfg m
  refine ⟨rfl, ?_, rfl⟩
  intro b hb
  simp only [checkCircuitBreakers, List.mem_cons, List.not_mem_nil, or_false] at hb
  rcases hb with rfl | rfl | rfl <;> simp

/-- Witness for claim C6: the triggered-iff-exceeds characterization
applied to the leverage breaker of the concrete scenario. -/
theorem C6_checkCircuitBreakers_spec_witness :
    ({ name := "Leverage Breaker"
       threshold := (c6cfg 1).riskLimits.maxLeverage * (3 / 2)
       currentValue := c6metrics.leverage
       triggered := decide ((c6cfg 1).riskLimits.maxLeverage * (3 / 2) < c6metrics.leverage)
       action := BreakerAction.reduce_position
       description := "레버리지 1.5배 초과시 포지션 축소" } : CircuitBreaker).triggered = true ↔
      ((c6cfg 1).riskLimits.maxLeverage * (3 / 2) <
        c6metrics.leverage) :=
  (C6_checkCircuitBreakers_spec.1 (c6cfg 1) c6metrics).2.1 _
    (by simp [checkCircuitBreakers])

/-- Claim C9: updateConfiguration is a top-level shallow merge of the
supplied partial into the live configuration — every top-level field absent
from the partial keeps its prior value, while a supplied riskLimits object
replaces the previous riskLimits object entirely, independently of the
prior risk limits, so omitted individual risk-limit fields do not retain
their prior values. -/
theorem C9_updateConfiguration_shallow_merge :
    ∀ (cfg : TradingConfiguration) (p : PartialTradingConfiguration) (rl : RiskLimits),
      (p.riskLimits = some rl → (updateConfiguration cfg p).riskLimits = rl) ∧
      (p.riskLimits = none → (updateConfiguration cfg p).riskLimits = cfg.riskLimits) ∧
      (p.enableAutoTrading = none →
        (updateConfiguration cfg p).enableAutoTrading = cfg.enableAutoTrading) ∧
      (p.confidenceThreshold = none →
        (updateConfiguration cfg p).confidenceThreshold = cfg.confidenceThreshold) ∧
      (p.maxTradesPerDay = none →
        (updateConfiguration cfg p).maxTradesPerDay = cfg.maxTradesPerDay) ∧
      (p.targetSymbols = none →
        (updateConfiguration cfg p).targetSymbols = cfg.targetSymbols) ∧
      (p.rebalanceFrequency = none →
        (updateConfiguration cfg p).rebalanceFrequency = cfg.rebalanceFrequency) := by
  intro cfg p rl
  refine ⟨?_, ?_, ?_, ?_, ?_, ?_, ?_⟩ <;> intro h <;> simp [updateConfiguration, h]

/-- Replacement riskLimits object supplied to the concrete update; its
maxPositionSize and maxLeverage differ from the defaults. -/
def c9newLimits : RiskLimits :=
  { maxPositionSize := 2 / 10
    maxDailyLoss := 2 / 100
    maxDrawdown := 5 / 100
    minCashRatio := 1 / 10
    maxLeverage := 1 / 2 }

/-- Partial update supplying only a riskLimits object. -/
def c9partial : PartialTradingConfiguration :=
  { enableAutoTrading := none
    riskLimits := some c9newLimits
    confidenceThreshold := none
    maxTradesPerDay := none
    targetSymbols := none
    rebalanceFrequency := none }

/-- Witness for claim C9: updating the default configuration with a partial
that supplies only riskLimits replaces the whole riskLimits object and
keeps maxTradesPerDay. -/
theorem C9_updateConfiguration_shallow_merge_witness :
    (updateConfiguration createDefaultTradingConfig c9partial).riskLimits = c9newLimits ∧
    (updateConfiguration createDefaultTradingConfig c9partial).maxTradesPerDay =
      createDefaultTradingConfig.maxTradesPerDay :=
  ⟨(C9_updateConfiguration_shallow_merge createDefaultTradingConfig c9partial
      c9newLimits).1 rfl,
   (C9_updateConfiguration_shallow_merge createDefaultTradingConfig c9partial
      c9newLimits).2.2.2.2.1 rfl⟩

/-- Dispatch of a single breaker never changes the engine state: the only
action that is supposed to, halt_trading, has an empty body. -/
theorem handleEmergencyStep_fst (balance : AccountBalance) (engine : EngineState)
    (b : CircuitBreaker) : (handleEmergencyStep balance engine b).1 = engine := by
  cases h : b.action <;> simp [handleEmergencyStep, h, haltTrading]

/-- The handleEmergency loop leaves the engine state unchanged. -/
theorem handleEmergencyLoop_fst (balance : AccountBalance) :
    ∀ (l : List CircuitBreaker) (engine : EngineState),
      (handleEmergencyLoop balance engine l).1 = engine := by
  intro l
  induction l with
  | nil => intro engine; rfl
  | cons b rest ih =>
    intro engine
    simp only [handleEmergencyLoop]
    rw [ih, handleEmergencyStep_fst]

/-- Triggered halt_trading breaker of the C2 scenario. -/
def c2breaker : CircuitBreaker :=
  { name := "Drawdown Breaker"
    threshold := 1 / 10
    currentValue := 1 / 6
    triggered := true
    action := BreakerAction.halt_trading
    description := "최대 낙폭 2배 도달시 매매 중단" }

/-- Running engine state of the C2 scenario. -/
def c2engine : EngineState :=
  { isRunning := true
    dailyTrades := 0
    lastTradeDate := "2025-01-02"
    performanceMetrics := { totalTrades := 0, winTrades := 0, totalPnL := 0, maxDrawdown := 0 } }

/-- Claim C2 (code bug): handleEmergency never changes the engine state at
all — the haltTrading body is an empty stub — so for a triggered breaker
with action halt_trading the running flag stays true instead of being set
to false; it also submits no broker call in the halt case (in particular it
cancels nothing, the only part of the claim the code satisfies). -/
theorem C2_handleEmergency_halt_is_stub :
    (∀ (breakers : List CircuitBreaker) (balance : AccountBalance) (engine : EngineState),
      (handleEmergency breakers balance engine).1 = engine) ∧
    c2breaker.triggered = true ∧
    c2breaker.action = BreakerAction.halt_trading ∧
    c2engine.isRunning = true ∧
    (handleEmergency [c2breaker] c6account c2engine).1.isRunning = true ∧
    (handleEmergency [c2breaker] c6account c2engine).2 = [] := by
  refine ⟨?_, rfl, rfl, rfl, ?_, ?_⟩
  · intro breakers balance engine
    exact handleEmergencyLoop_fst balance _ engine
  · rfl
  · rfl

/-- Empty account with zero total assets. -/
def c4balance : AccountBalance :=
  { totalAssets := 0
    cashBalance := 0
    stockValue := 0
    purchaseAmount := 0
    evaluationPL := 0
    positions := [] }

/-- Claim C4 counterexample: on the empty account with zero total assets,
calculateLeverage evaluates to NaN — the JavaScript value of 0 / 0 — and
not to the claimed value 0. -/
theorem C4_counterexample :
    calculateLeverage c4balance = JSNum.nan ∧ JSNum.nan ≠ JSNum.finite 0 := by
  decide

/-- Claim C4 amended: for nonzero total assets the computed leverage is the
finite value stockValue / totalAssets; for zero total assets the unguarded
division yields a non-finite JavaScript value (NaN or a signed infinity),
never the finite value 0. -/
theorem C4_calculateLeverage_amended :
    ∀ balance : AccountBalance,
      (balance.totalAssets ≠ 0 →
        calculateLeverage balance =
          JSNum.finite (balance.stockValue / balance.totalAssets)) ∧
      (balance.totalAssets = 0 →
        calculateLeverage balance = JSNum.nan ∨
        calculateLeverage balance = JSNum.posInf ∨
        calculateLeverage balance = JSNum.negInf) := by
  intro balance
  constructor
  · intro h
    simp [calculateLeverage, jsDiv, h]
  · intro h
    simp only [calculateLeverage, jsDiv, h]
    rcases lt_trichotomy balance.stockValue 0 with hlt | heq | hgt
    · right; right
      simp [not_lt.mpr hlt.le, hlt]
    · left
      simp [heq]
    · right; left
      simp [hgt]

/-- Witness for the amended claim C4: the example account with 800000 stock
value and 1000000 total assets has leverage 0.8, and the zero account is
sent to NaN. -/
theorem C4_calculateLeverage_amended_witness :
    calculateLeverage c6account =
      JSNum.finite (c6account.stockValue / c6account.totalAssets) ∧
    calculateLeverage c4balance = JSNum.nan := by
  constructor
  · exact (C4_calculateLeverage_amended c6account).1 (by decide)
  · have h := (C4_calculateLeverage_amended c4balance).2 rfl
    rcases h with h | h | h
    · exact h
    · exact absurd h (by decide)
    · exact absurd h (by decide)

/-- Audit record that the batch loop produces for one decision: the result
returned by executeSingleTrade, or the catch-block record carrying the
thrown message. -/
def expectedSingleResult (env : TradeEnv) (decision : TradingDecision) : TradingResult :=
  match (executeSingleTrade env decision).result with
  | Except.ok r => r
  | Except.error e =>
    { decision := decision
      order := none
      executed := false
      errorMessage := some e
      timestamp := env.now }

/-- The batch loop records exactly one result per decision, in input order,
independently of the engine state and of individual failures. -/
theorem executeTradingDecisions_results (env : TradeEnv) :
    ∀ (ds : List TradingDecision) (st : EngineState),
      (executeTradingDecisions env st ds).results = ds.map (expectedSingleResult env) := by
  intro ds
  induction ds with
  | nil => intro st; rfl
  | cons d rest ih =>
    intro st
    simp only [executeTradingDecisions, List.map_cons]
    cases h : (executeSingleTrade env d).result with
    | ok r => simp [h, expectedSingleResult, ih]
    | error e => simp [h, expectedSingleResult, ih]

/-- The orders submitted by the batch loop are exactly the concatenated
submissions of the single trades, independently of the engine state. -/
theorem executeTradingDecisions_submitted (env : TradeEnv) :
    ∀ (ds : List TradingDecision) (st : EngineState),
      (executeTradingDecisions env st ds).submitted =
        (ds.map fun d => (executeSingleTrade env d).submitted).flatten := by
  intro ds
  induction ds with
  | nil => intro st; rfl
  | cons d rest ih =>
    intro st
    simp only [executeTradingDecisions, List.map_cons, List.flatten_cons]
    cases h : (executeSingleTrade env d).result with
    | ok r => simp [h, ih]
    | error e => simp [h, ih]

/-- All-cash account of the batch scenarios. -/
def c7balance : AccountBalance :=
  { totalAssets := 1000000
    cashBalance := 1000000
    stockValue := 0
    purchaseAmount := 0
    evaluationPL := 0
    positions := [] }

/-- Engine state of the batch scenarios: running, zero daily trades, date
already stamped. -/
def runningState : EngineState :=
  { isRunning := true
    dailyTrades := 0
    lastTradeDate := "2025-01-02"
    performanceMetrics := { totalTrades := 0, winTrades := 0, totalPnL := 0, maxDrawdown := 0 } }

/-- Buy decision on one symbol used by the batch scenarios: confidence 0.8,
target weight 0.1, risk score 0.5. -/
def mkDecision (symbol : String) : TradingDecision :=
  { symbol := symbol
    action := TradeAction.buy
    confidence := 8 / 10
    targetSize := 1 / 10
    reasoning := []
    riskScore := 1 / 2
    expectedReturn := 0 }

/-- Market order the batch scenarios produce for one symbol: floor of
(1000000 times 0.1) over the price 100 gives 1000 shares. -/
def mkOrder (symbol : String) : StockOrder :=
  { symbol := symbol
    orderType := TradeAction.buy
    orderMethod := OrderMethod.market
    quantity := 1000
    price := none
    accountNo := "default" }

/-- Environment of the C7 scenario: the submission for the second symbol is
made to fail, the other submissions succeed. -/
def c7env : TradeEnv :=
  { balance := c7balance
    price := fun _ => 100
    placeOrder := fun order =>
      if order.symbol == "000660" then Except.error "Order rejected by broker"
      else Except.ok okOrderResult
    now := "2025-01-02T10:00:00Z"
    today := "2025-01-02" }

/-- Three decisions of the C7 scenario. -/
def c7decisions : List TradingDecision :=
  [mkDecision "005930", mkDecision "000660", mkDecision "035420"]

/-- Evaluation of one successful single trade in the C7 environment. -/
theorem c7_single_ok (s : String) (hs : (s == "000660") = false) :
    executeSingleTrade c7env (mkDecision s) =
      { result := Except.ok
          { decision := mkDecision s
            order := some okOrderResult
            executed := true
            errorMessage := none
            timestamp := "2025-01-02T10:00:00Z" }
        submitted := [mkOrder s] } := by
  have hne : s ≠ "000660" := ne_of_beq_false hs
  norm_num [executeSingleTrade, c7env, c7balance, mkDecision, mkOrder,
    firstPositionAccountNo, hne]

/-- Evaluation of the failing single trade in the C7 environment. -/
theorem c7_single_fail :
    executeSingleTrade c7env (mkDecision "000660") =
      { result := Except.error "Order rejected by broker"
        submitted := [mkOrder "000660"] } := by
  norm_num [executeSingleTrade, c7env, c7balance, mkDecision, mkOrder,
    firstPositionAccountNo]

/-- Claim C7: during sequential batch execution a submission failure for
one decision is caught and recorded as a TradingResult with executed false
and the error message, and every remaining decision is still attempted and
recorded in the returned ordered list — the results are exactly one record
per decision in input order; concretely, with three decisions whose second
submission fails, decisions one and three are still attempted (orders for
all three symbols are submitted) and all three are recorded in order. -/
theorem C7_batch_error_isolation :
    (∀ (env : TradeEnv) (ds : List TradingDecision) (st : EngineState),
      (executeTradingDecisions env st ds).results = ds.map (expectedSingleResult env)) ∧
    (executeTradingDecisions c7env runningState c7decisions).results.map
        TradingResult.executed = [true, false, true] ∧
    (executeTradingDecisions c7env runningState c7decisions).results.map
        TradingResult.errorMessage = [none, some "Order rejected by broker", none] ∧
    (executeTradingDecisions c7env runningState c7decisions).submitted.map
        StockOrder.symbol = ["005930", "000660", "035420"] := by
  have h1 := c7_single_ok "005930" (by decide)
  have h2 := c7_single_fail
  have h3 := c7_single_ok "035420" (by decide)
  refine ⟨executeTradingDecisions_results, ?_, ?_, ?_⟩ <;>
    simp [c7decisions, executeTradingDecisions, h1, h2, h3, mkOrder]

/-- Environment of the C1 scenario: every submission succeeds. -/
def c1env : TradeEnv :=
  { balance := c7balance
    price := fun _ => 100
    placeOrder := fun _ => Except.ok okOrderResult
    now := "2025-01-02T10:00:00Z"
    today := "2025-01-02" }

/-- Configuration of the C1 scenario: at most one trade per day. -/
def c1cfg : TradingConfiguration :=
  { createDefaultTradingConfig with maxTradesPerDay := 1 }

/-- Two decisions surviving every filter of the C1 scenario. -/
def c1decisions : List TradingDecision :=
  [mkDecision "005930", mkDecision "000660"]

/-- Orders submitted by the C1 invocation. -/
def c1submitted : List StockOrder :=
  match executeRebalancing c1env c1cfg runningState c1decisions with
  | Except.ok out => out.submitted
  | Except.error _ => []

/-- Evaluation of one single trade in the C1 environment. -/
theorem c1_single (s : String) :
    executeSingleTrade c1env (mkDecision s) =
      { result := Except.ok
          { decision := mkDecision s
            order := some okOrderResult
            executed := true
            errorMessage := none
            timestamp := "2025-01-02T10:00:00Z" }
        submitted := [mkOrder s] } := by
  norm_num [executeSingleTrade, c1env, c7balance, mkDecision, mkOrder,
    firstPositionAccountNo]

/-- Claim C1 counterexample: with maxTradesPerDay one and a zero daily
count, a single same-day executeRebalancing invocation carrying two
surviving decisions submits two orders to the broker — the daily quota is
checked only against the count at filter time, not between the trades of
one batch, so more than maxTradesPerDay orders are submitted within one
calendar day. -/
theorem C1_counterexample :
    c1cfg.maxTradesPerDay = 1 ∧
    runningState.dailyTrades = 0 ∧
    runningState.lastTradeDate = c1env.today ∧
    c1submitted.length = 2 := by
  have h1 := c1_single "005930"
  have h2 := c1_single "000660"
  have hfilter : filterDecisionsByRisk c1cfg runningState c1env.today c1decisions =
      (c1decisions, runningState) := by
    norm_num [filterDecisionsByRisk, filterLoop, c1decisions, c1cfg, runningState,
      mkDecision, c1env, createDefaultTradingConfig]
  have hreb : c1submitted =
      (executeTradingDecisions c1env
        (filterDecisionsByRisk c1cfg runningState c1env.today c1decisions).2
        (filterDecisionsByRisk c1cfg runningState c1env.today c1decisions).1).submitted := rfl
  refine ⟨rfl, rfl, rfl, ?_⟩
  rw [hreb, hfilter]
  simp [executeTradingDecisions_submitted, c1decisions, h1, h2]

/-- The filter loop accepts nothing once the daily count has reached the
configured daily maximum. -/
theorem filterLoop_quota (cfg : TradingConfiguration) (n : ℕ)
    (h : cfg.maxTradesPerDay ≤ n) (ds : List TradingDecision) :
    filterLoop cfg n ds = [] := by
  cases ds <;> simp [filterLoop, h]

/-- One single trade makes at most one submission. -/
theorem executeSingleTrade_submitted_le (env : TradeEnv) (d : TradingDecision) :
    (executeSingleTrade env d).submitted.length ≤ 1 := by
  simp only [executeSingleTrade]
  split
  · simp
  · split <;> simp

/-- Claim C1 amended: once the daily count has already reached
maxTradesPerDay when filtering starts, a same-day invocation accepts no
decisions and submits no orders; on a date rollover the daily count is
reset to zero (and the new date stamped) before filtering; and within one
batch the quota is not re-checked, so an invocation entering below the
quota may submit up to one order per decision it carries. -/
theorem C1_daily_quota_amended :
    (∀ (env : TradeEnv) (cfg : TradingConfiguration) (st : EngineState)
        (decisions : List TradingDecision),
      st.isRunning = true → st.lastTradeDate = env.today →
      cfg.maxTradesPerDay ≤ st.dailyTrades →
      executeRebalancing env cfg st decisions =
        Except.ok { results := [], submitted := [], state := st }) ∧
    (∀ (cfg : TradingConfiguration) (st : EngineState) (today : String)
        (decisions : List TradingDecision),
      st.lastTradeDate ≠ today →
      (filterDecisionsByRisk cfg st today decisions).2.dailyTrades = 0 ∧
      (filterDecisionsByRisk cfg st today decisions).2.lastTradeDate = today) ∧
    (∀ (env : TradeEnv) (st : EngineState) (decisions : List TradingDecision),
      (executeTradingDecisions env st decisions).submitted.length ≤ decisions.length) := by
  refine ⟨?_, ?_, ?_⟩
  · intro env cfg st decisions hrun hdate hquota
    simp only [executeRebalancing, hrun]
    simp only [filterDecisionsByRisk, hdate, ne_eq, not_true_eq_false, if_false,
      ite_self]
    simp [filterLoop_quota cfg st.dailyTrades hquota, executeTradingDecisions]
  · intro cfg st today decisions hdate
    constructor <;> simp [filterDecisionsByRisk, hdate]
  · intro env st decisions
    rw [executeTradingDecisions_submitted]
    induction decisions with
    | nil => simp
    | cons d rest ih =>
      simp only [List.map_cons, List.flatten_cons, List.length_append, List.length_cons]
      have h1 := executeSingleTrade_submitted_le env d
      omega

/-- Engine state already at the daily quota of the C1 scenario. -/
def c1fullState : EngineState :=
  { runningState with dailyTrades := 1 }

/-- Engine state dated before the rollover of the C1 scenario. -/
def c1rolloverState : EngineState :=
  { runningState with dailyTrades := 7, lastTradeDate := "2025-01-02" }

/-- Witness for the amended claim C1: an invocation entering at the quota
submits nothing, and a rollover resets the daily count before filtering. -/
theorem C1_daily_quota_amended_witness :
    executeRebalancing c1env c1cfg c1fullState c1decisions =
      Except.ok { results := [], submitted := [], state := c1fullState } ∧
    (filterDecisionsByRisk c1cfg c1rolloverState "2025-01-03" c1decisions).2.dailyTrades = 0 :=
  ⟨C1_daily_quota_amended.1 c1env c1cfg c1fullState c1decisions rfl rfl
      (by norm_num [c1cfg, c1fullState, runningState, createDefaultTradingConfig]),
   (C1_daily_quota_amended.2.1 c1cfg c1rolloverState "2025-01-03" c1decisions
      (by decide)).1⟩

/-- Held position of the C3 take-profit scenario: 1000 shares at price 100,
evaluation 100000 out of 1000000 total assets, at a 25 percent gain. -/
def c3position : Position :=
  { symbol := "005930"
    symbolName := ""
    quantity := 1000
    avgPrice := 80
    currentPrice := 100
    evaluationAmount := 100000
    profitLoss := 20000
    profitLossRate := 1 / 4 }

/-- Environment of the C3 take-profit scenario. -/
def c3env : TradeEnv :=
  { balance :=
      { totalAssets := 1000000
        cashBalance := 900000
        stockValue := 100000
        purchaseAmount := 80000
        evaluationPL := 20000
        positions := [c3position] }
    price := fun _ => 100
    placeOrder := fun _ => Except.ok okOrderResult
    now := "2025-01-02T10:00:00Z"
    today := "2025-01-02" }

/-- Held position of the C3 stop-loss scenario: 1000 shares at a 6 percent
loss. -/
def c3slposition : Position :=
  { symbol := "005930"
    symbolName := ""
    quantity := 1000
    avgPrice := 106
    currentPrice := 100
    evaluationAmount := 100000
    profitLoss := -6000
    profitLossRate := -(6 / 100) }

/-- Environment of the C3 stop-loss scenario. -/
def c3slenv : TradeEnv :=
  { balance :=
      { totalAssets := 1000000
        cashBalance := 900000
        stockValue := 100000
        purchaseAmount := 106000
        evaluationPL := -6000
        positions := [c3slposition] }
    price := fun _ => 100
    placeOrder := fun _ => Except.ok okOrderResult
    now := "2025-01-02T10:00:00Z"
    today := "2025-01-02" }

/-- Claim C3 (code bug): the minus six percent position does trigger a
forced full-quantity sell (1000 of 1000 held shares) with no filtering
involved, but the take-profit branch does not sell half the held quantity —
for the position worth 100000 at a 25 percent gain it submits a sell of
4000 shares, the floor of (totalAssets times 0.5 minus the position value)
over the price, instead of the 500 shares that are half the holding: the
target weight 0.5 weighs total assets, not the position, contradicting the
source comment that only half the quantity is sold. -/
theorem C3_take_profit_quantity_bug :
    c3position.profitLossRate = 1 / 4 ∧
    c3position.quantity = 1000 ∧
    (checkStopLossAndTakeProfit c3env).2.map StockOrder.quantity = [4000] ∧
    (checkStopLossAndTakeProfit c3env).1 = Except.ok () ∧
    c3slposition.profitLossRate = -(6 / 100) ∧
    (checkStopLossAndTakeProfit c3slenv).2.map StockOrder.quantity = [1000] := by
  have htp : executeSingleTrade c3env (takeProfitDecision c3position) =
      { result := Except.ok
          { decision := takeProfitDecision c3position
            order := some okOrderResult
            executed := true
            errorMessage := none
            timestamp := "2025-01-02T10:00:00Z" }
        submitted := [{ symbol := "005930"
                        orderType := TradeAction.sell
                        orderMethod := OrderMethod.market
                        quantity := 4000
                        price := none
                        accountNo := "005930" }] } := by
    have hsym : ("005930" : String) ≠ "" := by decide
    norm_num [executeSingleTrade, c3env, c3position, takeProfitDecision,
      firstPositionAccountNo, hsym]
  have hsl : executeSingleTrade c3slenv (stopLossDecision c3slposition) =
      { result := Except.ok
          { decision := stopLossDecision c3slposition
            order := some okOrderResult
            executed := true
            errorMessage := none
            timestamp := "2025-01-02T10:00:00Z" }
        submitted := [{ symbol := "005930"
                        orderType := TradeAction.sell
                        orderMethod := OrderMethod.market
                        quantity := 1000
                        price := none
                        accountNo := "005930" }] } := by
    have hsym : ("005930" : String) ≠ "" := by decide
    norm_num [executeSingleTrade, c3slenv, c3slposition, stopLossDecision,
      firstPositionAccountNo, hsym]
  have hpos : c3env.balance.positions = [c3position] := rfl
  have hrate : c3position.profitLossRate = 1 / 4 := rfl
  have hslpos : c3slenv.balance.positions = [c3slposition] := rfl
  have hslrate : c3slposition.profitLossRate = -(6 / 100) := rfl
  refine ⟨rfl, rfl, ?_, ?_, rfl, ?_⟩
  · norm_num [checkStopLossAndTakeProfit, sweepSLTP, checkPositionSLTP, hpos,
      hrate, htp, Except.map]
  · norm_num [checkStopLossAndTakeProfit, sweepSLTP, checkPositionSLTP, hpos,
      hrate, htp, Except.map]
  · norm_num [checkStopLossAndTakeProfit, sweepSLTP, checkPositionSLTP, hslpos,
      hslrate, hsl, Except.map]

/-- The drawdown scan result is at least its accumulator. -/
theorem ddScan_ge (l : List ℚ) : ∀ (peak m : ℚ), m ≤ ddScan l peak m := by
  induction l with
  | nil => intro peak m; exact le_refl m
  | cons v rest ih =>
    intro peak m
    rw [show ddScan (v :: rest) peak m =
        ddScan rest (max peak v) (max m ((max peak v - v) / max peak v)) from rfl]
    exact le_trans (le_max_left _ _) (ih _ _)

/-- The drawdown scan dominates the drawdown of the final entry relative to
the final running peak. -/
theorem ddScan_last (t : ℚ) :
    ∀ (l : List ℚ) (peak m : ℚ),
      (List.foldl max peak (l ++ [t]) - t) / List.foldl max peak (l ++ [t]) ≤
        ddScan (l ++ [t]) peak m := by
  intro l
  induction l with
  | nil =>
    intro peak m
    rw [show (([] : List ℚ) ++ [t]) = [t] from rfl]
    rw [show ddScan [t] peak m = max m ((max peak t - t) / max peak t) from rfl]
    rw [show List.foldl max peak [t] = max peak t from rfl]
    exact le_max_right _ _
  | cons v rest ih =>
    intro peak m
    rw [show ((v :: rest) ++ [t]) = v :: (rest ++ [t]) from rfl]
    rw [show ddScan (v :: (rest ++ [t])) peak m =
        ddScan (rest ++ [t]) (max peak v) (max m ((max peak v - v) / max peak v)) from rfl]
    rw [show List.foldl max peak (v :: (rest ++ [t])) =
        List.foldl max (max peak v) (rest ++ [t]) from rfl]
    exact ih _ _

/-- The folded risk-system state accumulates exactly the observed totals in
its history and their running maximum in its peak. -/
theorem foldDD_spec :
    ∀ (ts : List ℚ) (s : RiskSystemState),
      (ts.foldl (fun s t => (calculateDrawdownMetrics s t).2) s).performanceHistory =
          s.performanceHistory ++ ts ∧
      (ts.foldl (fun s t => (calculateDrawdownMetrics s t).2) s).maxHistoricalValue =
          ts.foldl max s.maxHistoricalValue := by
  intro ts
  induction ts with
  | nil => intro s; exact ⟨(List.append_nil _).symm, rfl⟩
  | cons t rest ih =>
    intro s
    constructor
    · rw [List.foldl_cons]
      rw [(ih ((calculateDrawdownMetrics s t).2)).1]
      rw [show ((calculateDrawdownMetrics s t).2).performanceHistory =
          s.performanceHistory ++ [t] from rfl]
      rw [List.append_assoc]
      rfl
    · rw [List.foldl_cons]
      rw [(ih ((calculateDrawdownMetrics s t).2)).2]
      rfl

/-- Claim C10: provided every total observed over the engine lifetime is
positive, the drawdown snapshot returned for the latest total satisfies
maxDrawdown ≥ currentDrawdown ≥ 0 — the current total is appended to the
engine-owned history and folded into the running peak before the scan, so
the current drawdown is among the drawdowns the maximum is taken over. -/
theorem C10_drawdown_invariant :
    ∀ (past : List ℚ) (t : ℚ),
      (∀ x ∈ past, 0 < x) → 0 < t →
      0 ≤ (calculateDrawdownMetrics (runDrawdown past) t).1.currentDrawdown ∧
      (calculateDrawdownMetrics (runDrawdown past) t).1.currentDrawdown ≤
        (calculateDrawdownMetrics (runDrawdown past) t).1.maxDrawdown := by
  intro past t hpos ht
  have hhist : (runDrawdown past).performanceHistory = past := by
    have h := (foldDD_spec past initialRiskSystemState).1
    simpa [runDrawdown, initialRiskSystemState] using h
  have hmax : (runDrawdown past).maxHistoricalValue = past.foldl max 0 := by
    have h := (foldDD_spec past initialRiskSystemState).2
    simpa [runDrawdown, initialRiskSystemState] using h
  have hcur : (calculateDrawdownMetrics (runDrawdown past) t).1.currentDrawdown =
      (max (past.foldl max 0) t - t) / max (past.foldl max 0) t := by
    rw [show (calculateDrawdownMetrics (runDrawdown past) t).1.currentDrawdown =
        (max (runDrawdown past).maxHistoricalValue t - t) /
          max (runDrawdown past).maxHistoricalValue t from rfl]
    rw [hmax]
  have hmaxdd : (calculateDrawdownMetrics (runDrawdown past) t).1.maxDrawdown =
      ddScan ((runDrawdown past).performanceHistory ++ [t]) 0 0 := rfl
  have htM : t ≤ max (past.foldl max 0) t := le_max_right _ _
  have hMpos : (0 : ℚ) < max (past.foldl max 0) t := lt_of_lt_of_le ht htM
  constructor
  · rw [hcur]
    exact div_nonneg (sub_nonneg.2 htM) hMpos.le
  · rw [hcur, hmaxdd, hhist]
    have hlast := ddScan_last t past 0 0
    have hfold : List.foldl max 0 (past ++ [t]) = max (past.foldl max 0) t := by
      rw [List.foldl_append]
      rfl
    rw [hfold] at hlast
    exact hlast

/-- Witness for claim C10: after observing the totals 1200000 and then
1000000, the current drawdown (one sixth) is nonnegative and at most the
maximum drawdown. -/
theorem C10_drawdown_invariant_witness :
    0 ≤ (calculateDrawdownMetrics (runDrawdown [1200000]) 1000000).1.currentDrawdown ∧
    (calculateDrawdownMetrics (runDrawdown [1200000]) 1000000).1.currentDrawdown ≤
      (calculateDrawdownMetrics (runDrawdown [1200000]) 1000000).1.maxDrawdown :=
  C10_drawdown_invariant [1200000] 1000000
    (by
      intro x hx
      rw [List.mem_singleton] at hx
      rw [hx]
      norm_num)
    (by norm_num)

/-- Entries of an ascending-sorted rational list are monotone in the
index. -/
theorem sorted_getD_le {l : List ℚ} (hs : List.Sorted (· ≤ ·) l) {i j : ℕ}
    (hij : i ≤ j) (hj : j < l.length) (d : ℚ) : l.getD i d ≤ l.getD j d := by
  have hi : i < l.length := lt_of_le_of_lt hij hj
  rw [List.getD_eq_getElem?_getD, List.getD_eq_getElem?_getD]
  rw [List.getElem?_eq_getElem hi, List.getElem?_eq_getElem hj]
  exact hs.rel_get_of_le (a := ⟨i, hi⟩) (b := ⟨j, hj⟩) hij

/-- Claim C5 amended: for every balance, every return-statistics list and
every realization of the draws, var99 is at least var95, because both
subtract sorted values from the same current total and the one-percent
index value is at most the five-percent index value of the ascending sort;
the further bound var95 ≥ 0 of the original claim does not hold for every
realization. -/
theorem C5_var_order_amended :
    ∀ (draws : ℕ → ℕ → ℚ) (stats : List ReturnStats) (balance : AccountBalance),
      (calculatePortfolioVaR draws stats balance).var95 ≤
        (calculatePortfolioVaR draws stats balance).var99 := by
  intro draws stats balance
  have h95 : (calculatePortfolioVaR draws stats balance).var95 =
      balance.totalAssets -
        (List.insertionSort (· ≤ ·) ((List.range numSimulations).map
          (simulatedPortfolioValue draws stats balance.positions))).getD 500 0 := rfl
  have h99 : (calculatePortfolioVaR draws stats balance).var99 =
      balance.totalAssets -
        (List.insertionSort (· ≤ ·) ((List.range numSimulations).map
          (simulatedPortfolioValue draws stats balance.positions))).getD 100 0 := rfl
  have hsorted : List.Sorted (· ≤ ·)
      (List.insertionSort (· ≤ ·) ((List.range numSimulations).map
        (simulatedPortfolioValue draws stats balance.positions))) :=
    List.sorted_insertionSort _ _
  have hlen : (List.insertionSort (· ≤ ·) ((List.range numSimulations).map
      (simulatedPortfolioValue draws stats balance.positions))).length = numSimulations := by
    rw [List.length_insertionSort, List.length_map, List.length_range]
  rw [h95, h99]
  apply sub_le_sub_left
  apply sorted_getD_le hsorted (by norm_num)
  rw [hlen]
  norm_num [numSimulations]

/-- Fully invested single position of the C5 scenario. -/
def c5position : Position :=
  { symbol := "005930"
    symbolName := ""
    quantity := 1
    avgPrice := 100
    currentPrice := 100
    evaluationAmount := 100
    profitLoss := 0
    profitLossRate := 0 }

/-- Zero-cash account of the C5 scenario. -/
def c5balance : AccountBalance :=
  { totalAssets := 100
    cashBalance := 0
    stockValue := 100
    purchaseAmount := 100
    evaluationPL := 0
    positions := [c5position] }

/-- Return statistics of the C5 scenario: getAssetReturns on an empty
return history yields the default mean 0.001 and std 0.02 (the square-root
parameter is unused on that branch). -/
def c5stats : List ReturnStats :=
  getAssetReturns id (fun _ => []) c5balance.positions

/-- Realization of the C5 scenario: every Box-Muller draw equals one. -/
def c5draws : ℕ → ℕ → ℚ :=
  fun _ _ => 1

/-- Every trial of the C5 scenario yields the same simulated total. -/
theorem c5_value (i : ℕ) :
    simulatedPortfolioValue c5draws c5stats c5balance.positions i = 1021 / 10 := by
  have hr : List.range 1 = [0] := rfl
  norm_num [simulatedPortfolioValue, c5draws, c5stats, c5balance, c5position,
    getAssetReturns, hr, List.foldl_cons, List.foldl_nil]

/-- The simulated totals of the C5 scenario form a constant list. -/
theorem c5_values_replicate :
    (List.range numSimulations).map
        (simulatedPortfolioValue c5draws c5stats c5balance.positions) =
      List.replicate numSimulations (1021 / 10) := by
  refine List.eq_replicate_iff.2 ⟨by simp, ?_⟩
  intro b hb
  rw [List.mem_map] at hb
  obtain ⟨i, _, rfl⟩ := hb
  exact c5_value i

/-- A constant rational list is sorted. -/
theorem sorted_replicate (n : ℕ) (x : ℚ) :
    List.Sorted (· ≤ ·) (List.replicate n x) := by
  induction n with
  | zero => simp
  | succ k ih =>
    rw [List.replicate_succ, List.sorted_cons]
    exact ⟨fun b hb => (List.eq_of_mem_replicate hb) ▸ le_refl x, ih⟩

/-- Sorting a constant list returns it unchanged. -/
theorem insertionSort_replicate (n : ℕ) (x : ℚ) :
    List.insertionSort (· ≤ ·) (List.replicate n x) = List.replicate n x :=
  (sorted_replicate n x).insertionSort_eq

/-- Indexing a constant list inside its range yields the constant. -/
theorem getD_replicate_of_lt (x d : ℚ) :
    ∀ (n i : ℕ), i < n → (List.replicate n x).getD i d = x := by
  intro n
  induction n with
  | zero => intro i h; exact absurd h (Nat.not_lt_zero i)
  | succ k ih =>
    intro i h
    rw [List.replicate_succ]
    cases i with
    | zero => rfl
    | succ j =>
      rw [show (x :: List.replicate k x).getD (j + 1) d =
          (List.replicate k x).getD j d from rfl]
      exact ih j (Nat.lt_of_succ_lt_succ h)

/-- Claim C5 counterexample: for the fully invested zero-cash account and
the realization in which every draw equals one, every simulated total is
102.1, the value at the five-percent index exceeds the current total of
100, and var95 = -2.1 < 0 — the claimed bound var95 ≥ 0 fails for this
realization of the draws. -/
theorem C5_counterexample :
    (calculatePortfolioVaR c5draws c5stats c5balance).var95 = -(21 / 10) ∧
    (calculatePortfolioVaR c5draws c5stats c5balance).var95 < 0 := by
  have h95 : (calculatePortfolioVaR c5draws c5stats c5balance).var95 =
      c5balance.totalAssets -
        (List.insertionSort (· ≤ ·) ((List.range numSimulations).map
          (simulatedPortfolioValue c5draws c5stats c5balance.positions))).getD 500 0 := rfl
  have hv : (calculatePortfolioVaR c5draws c5stats c5balance).var95 = -(21 / 10) := by
    rw [h95, c5_values_replicate, insertionSort_replicate,
      getD_replicate_of_lt _ _ numSimulations 500 (by norm_num [numSimulations])]
    norm_num [c5balance]
  exact ⟨hv, by rw [hv]; norm_num⟩

/-- Reading a key that the head entry does not carry skips the head. -/
theorem mapGetD_cons_ne (e : String × ℚ) (m : List (String × ℚ)) (key : String)
    (h : (e.1 == key) = false) : mapGetD (e :: m) key = mapGetD m key := by
  simp [mapGetD, List.find?_cons, h]

/-- Writing a key that the head entry does not carry keeps the head. -/
theorem mapSet_cons_ne (e : String × ℚ) (m : List (String × ℚ)) (key : String) (v : ℚ)
    (h : (e.1 == key) = false) : mapSet (e :: m) key v = e :: mapSet m key v := by
  have hne : e.1 ≠ key := ne_of_beq_false h
  cases hs : (List.find? (fun x => x.1 == key) m).isSome <;>
    simp [mapSet, List.find?_cons, h, hs, hne]

/-- A map write never changes the stored keys or appends exactly the
written key at the end. -/
theorem mapSet_keys (m : List (String × ℚ)) (key : String) (v : ℚ) :
    (mapSet m key v).map Prod.fst = m.map Prod.fst ∨
    ((mapSet m key v).map Prod.fst = m.map Prod.fst ++ [key] ∧ key ∉ m.map Prod.fst) := by
  by_cases hs : (List.find? (fun x => x.1 == key) m).isSome = true
  · left
    rw [show mapSet m key v = m.map (fun e => if e.1 == key then (e.1, v) else e) from by
      simp [mapSet, hs]]
    rw [List.map_map]
    apply List.map_congr_left
    intro x _
    by_cases hx : (x.1 == key) = true <;> simp [Function.comp, hx]
  · right
    have hnone : List.find? (fun x => x.1 == key) m = none := by
      cases hfind : List.find? (fun x => x.1 == key) m with
      | none => rfl
      | some y => rw [hfind] at hs; simp at hs
    constructor
    · rw [show mapSet m key v = m ++ [(key, v)] from by simp [mapSet, hnone]]
      simp
    · intro hmem
      rw [List.mem_map] at hmem
      obtain ⟨x, hx, hfst⟩ := hmem
      have hx2 := List.find?_eq_none.mp hnone x hx
      simp [hfst] at hx2

/-- A map write preserves distinctness of the stored keys. -/
theorem mapSet_keys_nodup (m : List (String × ℚ)) (key : String) (v : ℚ)
    (h : (m.map Prod.fst).Nodup) : ((mapSet m key v).map Prod.fst).Nodup := by
  rcases mapSet_keys m key v with heq | ⟨heq, hmem⟩
  · rw [heq]; exact h
  · rw [heq]
    simp [List.nodup_append, h, hmem]

/-- Adding a weight onto the entry of one key raises the stored total by
exactly that weight, for a map with distinct keys. -/
theorem mapSet_sum_add (key : String) (w : ℚ) :
    ∀ (m : List (String × ℚ)), (m.map Prod.fst).Nodup →
      ((mapSet m key (mapGetD m key + w)).map Prod.snd).sum =
        (m.map Prod.snd).sum + w := by
  intro m
  induction m with
  | nil =>
    intro _
    simp [mapSet, mapGetD]
  | cons e rest ih =>
    intro hnd
    rw [List.map_cons, List.nodup_cons] at hnd
    by_cases h : e.1 = key
    · have hbeq : (e.1 == key) = true := beq_iff_eq.mpr h
      have hrest : ∀ x ∈ rest, ((fun x => x.1 == key) x) ≠ true := by
        intro x hx hxk
        rw [beq_iff_eq] at hxk
        exact hnd.1 (h ▸ hxk ▸ List.mem_map_of_mem Prod.fst hx)
      have hget : mapGetD (e :: rest) key = e.2 := by
        simp [mapGetD, List.find?_cons, hbeq]
      have hset : mapSet (e :: rest) key (e.2 + w) =
          (e.1, e.2 + w) :: rest := by
        simp only [mapSet, List.find?_cons, hbeq]
        rw [if_pos (by simp)]
        rw [List.map_cons, if_pos hbeq]
        congr 1
        have : ∀ x ∈ rest, (if (x.1 == key) = true then (x.1, e.2 + w) else x) = x := by
          intro x hx
          rw [if_neg]
          intro hxk
          exact hrest x hx hxk
        simpa using List.map_congr_left this
      rw [hget, hset]
      simp only [List.map_cons, List.sum_cons]
      ring
    · have hbeq : (e.1 == key) = false := beq_eq_false_iff_ne.mpr h
      rw [mapGetD_cons_ne e rest key hbeq, mapSet_cons_ne e rest key _ hbeq]
      simp only [List.map_cons, List.sum_cons]
      rw [ih hnd.2]
      ring

/-- Generalized sector fold: starting from a map with distinct keys, the
stored totals grow by exactly the summed weights of the processed
positions. -/
theorem sectorFoldAux_sum (t : ℚ) :
    ∀ (ps : List Position) (m : List (String × ℚ)), (m.map Prod.fst).Nodup →
      (((ps.foldl (fun m position =>
          mapSet m (getSector position.symbol)
            (mapGetD m (getSector position.symbol) + position.evaluationAmount / t)) m)).map
            Prod.snd).sum =
        (m.map Prod.snd).sum + (ps.map fun p => p.evaluationAmount / t).sum := by
  intro ps
  induction ps with
  | nil => intro m _; simp
  | cons p rest ih =>
    intro m hnd
    rw [List.foldl_cons]
    rw [ih _ (mapSet_keys_nodup _ _ _ hnd)]
    rw [mapSet_sum_add _ _ m hnd]
    simp only [List.map_cons, List.sum_cons]
    ring

/-- Weights of a well-formed account lie inside the unit interval. -/
theorem positionWeights_bounds (balance : AccountBalance)
    (htotal : 0 < balance.totalAssets) (hcash : 0 ≤ balance.cashBalance)
    (hpos : ∀ p ∈ balance.positions, 0 ≤ p.evaluationAmount)
    (hsum : balance.cashBalance +
        (balance.positions.map Position.evaluationAmount).sum = balance.totalAssets) :
    ∀ w ∈ positionWeights balance, 0 ≤ w ∧ w ≤ 1 := by
  intro w hw
  rw [positionWeights, List.mem_map] at hw
  obtain ⟨p, hp, rfl⟩ := hw
  constructor
  · exact div_nonneg (hpos p hp) htotal.le
  · rw [div_le_one htotal]
    have hle : p.evaluationAmount ≤
        (balance.positions.map Position.evaluationAmount).sum := by
      apply List.single_le_sum
      · intro x hx
        rw [List.mem_map] at hx
        obtain ⟨q, hq, rfl⟩ := hx
        exact hpos q hq
      · exact List.mem_map_of_mem Position.evaluationAmount hp
    calc p.evaluationAmount
        ≤ (balance.positions.map Position.evaluationAmount).sum := hle
      _ ≤ balance.cashBalance +
            (balance.positions.map Position.evaluationAmount).sum := by linarith
      _ = balance.totalAssets := hsum

/-- A running maximum started inside the unit interval over values inside
the unit interval stays inside it. -/
theorem foldl_max_unit :
    ∀ (l : List ℚ) (a : ℚ), 0 ≤ a → a ≤ 1 → (∀ x ∈ l, 0 ≤ x ∧ x ≤ 1) →
      0 ≤ l.foldl max a ∧ l.foldl max a ≤ 1 := by
  intro l
  induction l with
  | nil => intro a h0 h1 _; exact ⟨h0, h1⟩
  | cons x rest ih =>
    intro a h0 h1 hall
    rw [List.foldl_cons]
    have hx := hall x (List.mem_cons_self x rest)
    exact ih (max a x) (le_max_of_le_left h0) (max_le h1 hx.2)
      fun y hy => hall y (List.mem_cons_of_mem x hy)

/-- Claim C8 amended: for every account with nonzero total assets the
bySector weights sum exactly to the sum of the per-position weights, since
every position weight is added to exactly one sector entry (at zero total
assets the weights of the program are non-finite and the two sums diverge);
and for an account with at least one position, positive total assets,
nonnegative cash and evaluation amounts, and cash plus position values
summing to the total, maxSinglePosition is a finite value inside [0, 1] —
without at least one position Math.max of the empty weight array is
-Infinity, so the original unconditional bound fails. -/
theorem C8_concentration_amended :
    (∀ balance : AccountBalance,
      balance.totalAssets ≠ 0 →
      ((calculateConcentrationRisk balance).sectorConcentration.map Prod.snd).sum =
        (positionWeights balance).sum) ∧
    (∀ balance : AccountBalance,
      balance.positions ≠ [] →
      0 < balance.totalAssets →
      0 ≤ balance.cashBalance →
      (∀ p ∈ balance.positions, 0 ≤ p.evaluationAmount) →
      balance.cashBalance +
          (balance.positions.map Position.evaluationAmount).sum = balance.totalAssets →
      (calculateConcentrationRisk balance).maxSinglePosition.inUnitRange = true) := by
  constructor
  · intro balance _
    have h := sectorFoldAux_sum balance.totalAssets balance.positions [] (by simp)
    simpa [calculateConcentrationRisk, sectorFold, positionWeights] using h
  · intro balance hne htotal hcash hpos hsum
    have hbounds := positionWeights_bounds balance htotal hcash hpos hsum
    obtain ⟨p, ps, hps⟩ := List.exists_cons_of_ne_nil hne
    have hweights : positionWeights balance =
        (p.evaluationAmount / balance.totalAssets) ::
          (ps.map fun q => q.evaluationAmount / balance.totalAssets) := by
      rw [positionWeights, hps, List.map_cons]
    have hmax : (calculateConcentrationRisk balance).maxSinglePosition =
        JSNum.finite ((ps.map fun q => q.evaluationAmount / balance.totalAssets).foldl
          max (p.evaluationAmount / balance.totalAssets)) := by
      rw [show (calculateConcentrationRisk balance).maxSinglePosition =
          jsMaxList (positionWeights balance) from rfl]
      rw [hweights]
      rfl
    have hhead := hbounds (p.evaluationAmount / balance.totalAssets)
      (by rw [hweights]; exact List.mem_cons_self _ _)
    have htail : ∀ x ∈ ps.map fun q => q.evaluationAmount / balance.totalAssets,
        0 ≤ x ∧ x ≤ 1 := by
      intro x hx
      exact hbounds x (by rw [hweights]; exact List.mem_cons_of_mem _ hx)
    have hfold := foldl_max_unit _ _ hhead.1 hhead.2 htail
    rw [hmax]
    simp [JSNum.inUnitRange, hfold.1, hfold.2]

/-- All-cash account without positions. -/
def c8empty : AccountBalance :=
  { totalAssets := 100
    cashBalance := 100
    stockValue := 0
    purchaseAmount := 0
    evaluationPL := 0
    positions := [] }

/-- Claim C8 counterexample: on an account with no positions, Math.max over
the empty weight array yields -Infinity, so maxSinglePosition is not a
finite value inside [0, 1]. -/
theorem C8_counterexample :
    (calculateConcentrationRisk c8empty).maxSinglePosition = JSNum.negInf ∧
    (calculateConcentrationRisk c8empty).maxSinglePosition.inUnitRange = false :=
  ⟨rfl, rfl⟩

/-- Well-formed one-position account of the C8 witness. -/
def c8account : AccountBalance :=
  { totalAssets := 100
    cashBalance := 50
    stockValue := 50
    purchaseAmount := 50
    evaluationPL := 0
    positions :=
      [{ symbol := "005930"
         symbolName := ""
         quantity := 1
         avgPrice := 50
         currentPrice := 50
         evaluationAmount := 50
         profitLoss := 0
         profitLossRate := 0 }] }

/-- Witness for the amended claim C8 at the concrete one-position
account. -/
theorem C8_concentration_amended_witness :
    ((calculateConcentrationRisk c8account).sectorConcentration.map Prod.snd).sum =
      (positionWeights c8account).sum ∧
    (calculateConcentrationRisk c8account).maxSinglePosition.inUnitRange = true :=
  ⟨C8_concentration_amended.1 c8account (by norm_num [c8account]),
   C8_concentration_amended.2 c8account (by simp [c8account])
     (by norm_num [c8account]) (by norm_num [c8account])
     (by
       intro p hp
       simp only [c8account, List.mem_singleton] at hp
       rw [hp]
       norm_num)
     (by norm_num [c8account])⟩

end RLE
